import Mathlib

/-!
Verification model of the voice-assistant repository (command resolution,
command execution, API-client retry logic, orchestrator loop, wake-word
detection loop and speech capture window).

The embedding models the repository sources:
* `src/command_processor.py` — `CommandProcessor.process_command`
* `src/database_manager.py` — embedding rows yielded by
  `get_simple_tool_embeddings` / `get_intelligent_tool_embeddings`
* `src/api_client.py` — `APIClient.get_ai_response`
* `src/command_executor.py` — `CommandExecutor.execute_initial_command`
* `src/voice_assistant.py` — `VoiceAssistant.process_command_async` and the
  main loop of `VoiceAssistant.run`
* `src/wake_word_detector.py` — `WakeWordDetector._detection_loop` and
  `WakeWordDetector.is_wake_detected`
* `src/speech_recognizer.py` — `SpeechRecognizer.recognize_command`

External collaborators (the sentence-embedding model, cosine similarity,
the Groq chat backend, the Vosk recognizer, the wake-word model, wall-clock
time) are parameters of the model; everything else is translated from the
Python source. Embedding vectors and similarity scores are rationals.
-/

namespace ProjectMLO

/-! ## Tool resolver (`src/command_processor.py`) -/

/-- An embedding vector, as decoded from the stored blob by
`np.frombuffer(tool_data['tool_embedding'], dtype=np.float32)`.
An empty blob decodes to the empty vector. -/
abbrev Embedding := List ℚ

/-- The kind of tool returned by `process_command` (the Python strings
"simple" and "intelligent"). -/
inductive ToolKind where
  | simple
  | intelligent
  deriving DecidableEq, Repr

/-- One row yielded by `DatabaseManager.get_simple_tool_embeddings` /
`get_intelligent_tool_embeddings` (`SELECT id, embedding_vector FROM ...`,
no ORDER BY): the tool id and the stored embedding blob.  `none` models an
SQL NULL blob, `some []` models an empty (zero-byte) blob; both are falsy
under Python's `if tool_data['tool_embedding']:` test. -/
structure ToolRow where
  tool_id : Nat
  tool_embedding : Option Embedding
  deriving DecidableEq, Repr

/-- The two registries read by `process_command`, in the order their SQL
queries yield the rows. -/
structure ToolDB where
  simple_tools : List ToolRow
  intelligent_tools : List ToolRow
  deriving DecidableEq, Repr

/-- The rows kept by the loop
`for tool_data in ...: if tool_data['tool_embedding']: ...` in
`process_command`: id and decoded embedding of every row whose blob is
neither NULL nor empty, in yield order. -/
def validEmbeddings (rows : List ToolRow) : List (Nat × Embedding) :=
  rows.filterMap fun r =>
    match r.tool_embedding with
    | none => none
    | some e => if e = [] then none else some (r.tool_id, e)

/-- `numpy.argmax` on a vector of similarities: the first index holding the
maximal entry (`0` on the empty list). -/
def argmax : List ℚ → Nat
  | [] => 0
  | [_] => 0
  | x :: y :: xs =>
    if x < (y :: xs).getD (argmax (y :: xs)) 0 then argmax (y :: xs) + 1 else 0

/-- The row of cosine similarities `cosine_similarity([user_embedding],
embeddings_list)` computed in `process_command`; the cosine function itself
is an external collaborator (scikit-learn) and is a parameter `cos`. -/
def simsOf (cos : Embedding → Embedding → ℚ) (user_embedding : Embedding)
    (v : List (Nat × Embedding)) : List ℚ :=
  v.map fun p => cos user_embedding p.2

/-- `similarities[0, best_index] * 100`: the similarity at the arg-max,
scaled to a 0–100 confidence. -/
def bestConfOf (sims : List ℚ) : ℚ :=
  sims.getD (argmax sims) 0 * 100

/-- One registry block of `process_command` (the simple-tool block, lines
52–73, and the intelligent-tool block, lines 76–99, are the same code up to
the registry and threshold): if any row survives the embedding filter,
take the arg-max similarity, scale it, and return the matched id and
confidence when the confidence clears the threshold; otherwise fall
through (`none`). -/
def registryMatch (cos : Embedding → Embedding → ℚ) (user_embedding : Embedding)
    (rows : List ToolRow) (threshold : ℚ) : Option (Nat × ℚ) :=
  let v := validEmbeddings rows
  if v = [] then none
  else
    let sims := simsOf cos user_embedding v
    let conf := bestConfOf sims
    if threshold ≤ conf then some ((v.getD (argmax sims) (0, [])).1, conf)
    else none

/-- Python's `not text.strip()`: true exactly when the text is empty or
consists only of whitespace. -/
def strippedEmpty (text : String) : Bool :=
  text.data.all Char.isWhitespace

/-- `CommandProcessor.process_command(text, simple_threshold,
intelligent_tool_threshold)`.  Returns the Python tuple
`(tool_type, tool_id, confidence)`; `(none, none, 0)` is Python's
`(None, None, 0)`.  The sentence-transformer `encode` and the cosine
similarity `cos` are external-model parameters. -/
def process_command (cos : Embedding → Embedding → ℚ) (encode : String → Embedding)
    (db : ToolDB) (text : String)
    (simple_threshold intelligent_tool_threshold : ℚ) :
    Option ToolKind × Option Nat × ℚ :=
  if strippedEmpty text then (none, none, 0)
  else
    let user_embedding := encode text
    match registryMatch cos user_embedding db.simple_tools simple_threshold with
    | some (tid, conf) => (some ToolKind.simple, some tid, conf)
    | none =>
      match registryMatch cos user_embedding db.intelligent_tools
          intelligent_tool_threshold with
      | some (tid, conf) => (some ToolKind.intelligent, some tid, conf)
      | none => (none, none, 0)

/-- The best (arg-max) scaled confidence of a registry against a user
embedding — the value `best_simple_confidence` / `best_intelligent_confidence`
computed by `process_command`. -/
def bestConfidence (cos : Embedding → Embedding → ℚ) (user_embedding : Embedding)
    (rows : List ToolRow) : ℚ :=
  bestConfOf (simsOf cos user_embedding (validEmbeddings rows))

/-- The tool id sitting at the arg-max position
(`simple_tool_ids[best_simple_index]`). -/
def bestToolId (cos : Embedding → Embedding → ℚ) (user_embedding : Embedding)
    (rows : List ToolRow) : Nat :=
  ((validEmbeddings rows).getD
    (argmax (simsOf cos user_embedding (validEmbeddings rows))) (0, [])).1

/-! ## API client (`src/api_client.py`) -/

/-- A message row of the message log (`messages.db`): role and content. -/
structure Msg where
  role : String
  message : String
  deriving DecidableEq, Repr

/-- The content returned by one Groq chat completion, as seen by the parsing
code in `get_ai_response`: either it fails `json.loads` (`invalid`), or it
parses but has no "message" key (`noMessage`, a `KeyError`), or it is an
object carrying a message and, optionally, a `continue_conversation`
field (`none` = the key is absent). -/
inductive Content where
  | invalid
  | noMessage
  | obj (message : String) (continue_conversation : Option Bool)
  deriving DecidableEq, Repr

/-- Outcome of one `client.chat.completions.create` call: a content payload,
or a raised exception carrying its `str(e)` text. -/
inductive BackendResult where
  | ok (content : Content)
  | err (error_str : String)
  deriving DecidableEq, Repr

/-- A response envelope as returned by `get_ai_response`: the `message`
entry and the `continue_conversation` entry of the returned dict (`none` =
the key is absent from the dict). -/
structure Envelope where
  message : String
  continue_conversation : Option Bool
  deriving DecidableEq, Repr

/-- Python's substring test `pat in s`: the characters of `pat` occur
contiguously inside the characters of `s`. -/
def containsSub (s pat : String) : Bool :=
  decide (List.IsInfix pat.data s.data)

/-- First tag tested by the retry guard of `get_ai_response`. -/
def jsonValidateTag : String := "json_validate_failed"

/-- Second tag tested by the retry guard of `get_ai_response`. -/
def failedGenTag : String := "Failed to generate JSON"

/-- The retry guard
`"json_validate_failed" in error_str or "Failed to generate JSON" in error_str`. -/
def isJsonValidationError (error_str : String) : Bool :=
  containsSub error_str jsonValidateTag || containsSub error_str failedGenTag

/-- Message returned when no API key is configured. -/
def noKeyMsg : String := "Sorry, I don\x27t have access to AI assistance right now."

/-- Fallback message for backend content that fails to parse. -/
def parseFallbackMsg : String := "Sorry, I had trouble understanding that."

/-- The fixed apology message of the error path. -/
def apologyMsg : String := "Sorry, I couldn\x27t process your request right now."

/-- `APIClient.get_ai_response(user_message, tool_id, max_tokens, temperature,
retry_count)`.  The backend is a parameter mapping the retry count of a call
to that call's outcome.  Returns the envelope and the message log after the
call (the log is `messages.db`; appends model `add_message("assistant", ...)`).
The recursive branch is the one retry at `temperature=0.3`. -/
def get_ai_response (hasApiKey : Bool) (backend : Nat → BackendResult)
    (temperature : ℚ) (retry_count : Nat) (log : List Msg) :
    Envelope × List Msg :=
  if hasApiKey = false then
    (⟨noKeyMsg, some false⟩, log)
  else
    match backend retry_count with
    | BackendResult.ok (Content.obj m cc) =>
      (⟨m, cc⟩, log ++ [⟨"assistant", m⟩])
    | BackendResult.ok Content.invalid =>
      (⟨parseFallbackMsg, some false⟩, log ++ [⟨"assistant", parseFallbackMsg⟩])
    | BackendResult.ok Content.noMessage =>
      (⟨parseFallbackMsg, some false⟩, log ++ [⟨"assistant", parseFallbackMsg⟩])
    | BackendResult.err e =>
      if h : isJsonValidationError e = true ∧ retry_count = 0 then
        get_ai_response hasApiKey backend (3 / 10) 1 log
      else
        (⟨apologyMsg, some false⟩, log ++ [⟨"assistant", apologyMsg⟩])
termination_by 1 - retry_count
decreasing_by omega

/-! ## Command executor (`src/command_executor.py`) -/

/-- The dict returned by `DatabaseManager.get_simple_tool(tool_id)`. -/
structure SimpleTool where
  tool_name : String
  description : String
  deriving DecidableEq, Repr

/-- The `if/elif` chain over `tool_name` in `execute_initial_command`
(simple-tool dispatch).  `now` is `time.strftime('%I:%M %p', ...)`. -/
def simpleToolEnvelope (now : String) (tool_name : String) : Envelope :=
  if tool_name = "turn_on_bedroom_lamp" then ⟨"Bedroom lamp is now on", some false⟩
  else if tool_name = "turn_off_bedroom_lamp" then ⟨"Bedroom lamp is now off", some false⟩
  else if tool_name = "turn_on_living_room_lamp" then ⟨"Living room lamp is now on", some false⟩
  else if tool_name = "turn_off_living_room_lamp" then ⟨"Living room lamp is now off", some false⟩
  else if tool_name = "turn_on_all_lights" then ⟨"All lights are now on", some false⟩
  else if tool_name = "turn_off_all_lights" then ⟨"All lights are now off", some false⟩
  else if tool_name = "get_time" then ⟨"The current time is " ++ now, some false⟩
  else if tool_name = "get_weather" then ⟨"The current weather is sunny", some false⟩
  else if tool_name = "volume_up" then ⟨"Volume is now up", some false⟩
  else if tool_name = "volume_down" then ⟨"Volume is now down", some false⟩
  else if tool_name = "mute" then ⟨"Volume is now muted", some false⟩
  else if tool_name = "unmute" then ⟨"Volume is now unmuted", some false⟩
  else if tool_name = "private_mode_on" then ⟨"Private mode is now enabled", some false⟩
  else if tool_name = "private_mode_off" then ⟨"Private mode is now disabled", some false⟩
  else if tool_name = "switch_voice" then ⟨"Voice has been switched", some false⟩
  else ⟨"Executing " ++ tool_name, some false⟩

/-- The collaborators and stores one turn runs against: the embedding model
and cosine similarity, the tool registries, the Groq API key and backend,
the `get_simple_tool` lookup and the wall-clock string. -/
structure Env where
  cos : Embedding → Embedding → ℚ
  encode : String → Embedding
  db : ToolDB
  hasApiKey : Bool
  backend : Nat → BackendResult
  get_simple_tool : Nat → Option SimpleTool
  now : String

/-- `CommandExecutor.execute_initial_command(tool_type, tool_id, confidence,
command_text)`: simple tools map to static envelopes without touching the
message log; intelligent tools and the no-tool fallback both call
`get_ai_response` (at its default `temperature=1, retry_count=0`). -/
def execute_initial_command (E : Env) (tool_type : Option ToolKind)
    (tool_id : Option Nat) (log : List Msg) : Envelope × List Msg :=
  match tool_type with
  | some ToolKind.simple =>
    match tool_id.bind E.get_simple_tool with
    | some td => (simpleToolEnvelope E.now td.tool_name, log)
    | none => (⟨"Sorry, I couldn\x27t find that tool", some false⟩, log)
  | some ToolKind.intelligent => get_ai_response E.hasApiKey E.backend 1 0 log
  | none => get_ai_response E.hasApiKey E.backend 1 0 log

/-! ## Orchestrator (`src/voice_assistant.py`) -/

/-- Audio event: one `play_low_beep()` call (a single 400 Hz beep). -/
def lowBeepTag : String := "low_beep"

/-- Audio event: `play_sound("sources/ready.mp3")`. -/
def readyToneTag : String := "sources/ready.mp3"

/-- Audio event: `auto_detect_speak(message)`. -/
def speakTag (message : String) : String := "speak:" ++ message

/-- The speech played after a turn: `if response and response["message"]:
auto_detect_speak(response["message"])`. -/
def speakSounds (resp : Option Envelope) : List String :=
  match resp with
  | some env => if env.message ≠ "" then [speakTag env.message] else []
  | none => []

/-- `VoiceAssistant.process_command_async(command_text)`.  Returns the
response (`none` is Python's `None`), the message log after the turn, the
`self.continue_conversation` flag after the call, and the beeps played.
A non-blank transcript appends the user message, resolves it with the
default thresholds (50/30) and executes the match; a blank one clears the
flag and plays the double low beep. -/
def process_command_async (E : Env) (continue_conversation : Bool)
    (command_text : String) (log : List Msg) :
    Option Envelope × List Msg × Bool × List String :=
  if strippedEmpty command_text = false then
    let log1 := log ++ [⟨"user", command_text⟩]
    let r := process_command E.cos E.encode E.db command_text 50 30
    let er := execute_initial_command E r.1 r.2.1 log1
    (some er.1, er.2, continue_conversation, [])
  else
    (none, log, false, [lowBeepTag, lowBeepTag])

/-- The orchestrator-owned state at the top of each iteration of the
`while self.running` loop in `VoiceAssistant.run`. -/
structure OrchState where
  continue_conversation : Bool
  wake_detected : Bool
  listening_for_command : Bool
  log : List Msg
  deriving DecidableEq, Repr

/-- One iteration of the main loop of `VoiceAssistant.run`.  Inputs: the
state, the transcript the capture window would yield, and whether the
detector thread raises the wake event again while the turn is running
(`wakeDuringTurn`).  Output: the state after the iteration (`none` models
the uncaught `KeyError` raised by `response["continue_conversation"]` when
that key is absent, which exits the loop), the audio events played in
order, and whether a capture window was opened.  `is_wake_detected()`
consumes (clears) the wake event at the entry test; the `continue` path
skips the `wake_detected.clear()` call, the other paths run it. -/
def orch_iteration (E : Env) (st : OrchState) (transcript : String)
    (wakeDuringTurn : Bool) : Option OrchState × List String × Bool :=
  if st.wake_detected || st.continue_conversation then
    let pca := process_command_async E st.continue_conversation transcript st.log
    let resp := pca.1
    let log2 := pca.2.1
    let beeps := pca.2.2.2
    let sounds := readyToneTag :: (beeps ++ speakSounds resp)
    match resp with
    | none =>
      (some ⟨false, false, false, log2⟩, sounds, true)
    | some env =>
      match env.continue_conversation with
      | none => (none, sounds, true)
      | some true => (some ⟨true, wakeDuringTurn, false, log2⟩, sounds, true)
      | some false => (some ⟨false, false, false, log2⟩, sounds, true)
  else
    (some st, [], false)

/-! ## Wake-word detector (`src/wake_word_detector.py`) -/

/-- What one iteration of `_detection_loop` observes: no audio in the wake
queue, a frame together with the wake model's label→confidence prediction,
or an exception from the model call. -/
inductive DetectInput where
  | noAudio
  | audio (prediction : List (String × ℚ))
  | modelError
  deriving DecidableEq, Repr

/-- One iteration of `WakeWordDetector._detection_loop`.  Returns the wake
event after the iteration and whether a frame was submitted to the wake
model (`self.wake_model.predict` was called).  The event is set whenever
some confidence strictly exceeds the threshold; `Event.set` on an already
set event leaves it set. -/
def detection_iteration (confidence_threshold : ℚ) (wake_detected : Bool)
    (inp : DetectInput) : Bool × Bool :=
  match inp with
  | DetectInput.noAudio => (wake_detected, false)
  | DetectInput.modelError => (wake_detected, true)
  | DetectInput.audio prediction =>
    (wake_detected || prediction.any fun p => confidence_threshold < p.2, true)

/-- `WakeWordDetector.is_wake_detected()`: returns whether the event was
set, and clears it (the event after the call is always clear). -/
def is_wake_detected (wake_detected : Bool) : Bool × Bool :=
  (wake_detected, false)

/-! ## Speech recognizer (`src/speech_recognizer.py`) -/

/-- What one iteration of the `while listening_event.is_set()` loop in
`recognize_command` observes: a queue timeout (`get_command_audio` returned
`None`), a final Vosk result with its text, a partial result with its text,
or an exception. -/
inductive RecEvent where
  | noData
  | finalText (text : String)
  | partialText (text : String)
  | engineError
  deriving DecidableEq, Repr

/-- The loop of `SpeechRecognizer.recognize_command`, driven by a script of
timestamped events (the timestamp is `time.time()` at that iteration; an
exhausted script models `listening_event` being cleared).  State threaded
through the loop: `command_text` (the accumulated transcript) and
`silence_start` (`None` until a run of silence begins). -/
def recognize_loop (max_silence_duration : ℚ) :
    List (ℚ × RecEvent) → String → Option ℚ → String
  | [], command_text, _ => command_text
  | (t, ev) :: rest, command_text, silence_start =>
    match ev with
    | RecEvent.noData =>
      recognize_loop max_silence_duration rest command_text silence_start
    | RecEvent.finalText s =>
      if s ≠ "" then s
      else recognize_loop max_silence_duration rest command_text silence_start
    | RecEvent.partialText s =>
      if s ≠ "" then recognize_loop max_silence_duration rest command_text none
      else
        match silence_start with
        | none => recognize_loop max_silence_duration rest command_text (some t)
        | some t0 =>
          if max_silence_duration < t - t0 then command_text
          else recognize_loop max_silence_duration rest command_text (some t0)
    | RecEvent.engineError => command_text

/-- `SpeechRecognizer.recognize_command`: run the loop from the initial
state `command_text = ""`, `silence_start = None`. -/
def recognize_command (max_silence_duration : ℚ)
    (script : List (ℚ × RecEvent)) : String :=
  recognize_loop max_silence_duration script "" none

/-! ## Concrete collaborator instances used by witnesses and
counterexamples.  `constCos` is realizable by actual cosine similarity:
the cosine of any nonzero vector with itself is 1, so a registry whose
stored blob equals the encoding of the input text produces exactly these
scores. -/

/-- Cosine-similarity instance that scores 1 (a registry storing the very
embedding of the input text). -/
def constCos : Embedding → Embedding → ℚ := fun _ _ => 1

/-- Sentence-transformer instance mapping every text to the vector `[1]`. -/
def constEncode : String → Embedding := fun _ => [1]

/-- Backend instance whose reply always continues the conversation. -/
def contBackend : Nat → BackendResult :=
  fun _ => BackendResult.ok (Content.obj "ok" (some true))

/-- A turn environment with empty registries and a continuing backend:
every non-blank transcript falls through to the language model. -/
def envCont : Env :=
  ⟨constCos, constEncode, ⟨[], []⟩, true, contBackend, fun _ => none, "12:00 PM"⟩

/-- Backend instance raising a JSON-validation error on the first attempt
and answering normally on the retry. -/
def valErrBackend : Nat → BackendResult :=
  fun rc => if rc = 0 then BackendResult.err jsonValidateTag
            else BackendResult.ok (Content.obj "ok" (some true))

/-! ## Helper lemmas: `argmax` picks the first maximal entry -/

/-- Unfolding equation of `argmax` on a list of two or more entries. -/
theorem argmax_cons₂ (a b : ℚ) (t : List ℚ) :
    argmax (a :: b :: t)
      = if a < (b :: t).getD (argmax (b :: t)) 0 then argmax (b :: t) + 1
        else 0 := by
  simp only [argmax]

/-- The entry at the arg-max index bounds every entry of the list. -/
theorem le_getD_argmax : ∀ (l : List ℚ), ∀ x ∈ l, x ≤ l.getD (argmax l) 0
  | [] => by simp
  | [a] => by
    intro x hx
    rw [List.mem_singleton.1 hx]
    rw [show argmax [a] = 0 from rfl, List.getD_cons_zero]
  | a :: b :: t => by
    intro x hx
    have ih := le_getD_argmax (b :: t)
    by_cases h : a < (b :: t).getD (argmax (b :: t)) 0
    · rw [argmax_cons₂, if_pos h, List.getD_cons_succ]
      rcases List.mem_cons.1 hx with rfl | hx
      · exact le_of_lt h
      · exact ih x hx
    · rw [argmax_cons₂, if_neg h, List.getD_cons_zero]
      rcases List.mem_cons.1 hx with rfl | hx
      · exact le_refl x
      · exact le_trans (ih x hx) (not_lt.1 h)

/-- On a nonempty list the entry at the arg-max index is an entry. -/
theorem getD_argmax_mem : ∀ (l : List ℚ), l ≠ [] → l.getD (argmax l) 0 ∈ l
  | [], h => absurd rfl h
  | [a], _ => by
    rw [show argmax [a] = 0 from rfl, List.getD_cons_zero]
    exact List.mem_singleton_self a
  | a :: b :: t, _ => by
    have ih := getD_argmax_mem (b :: t) (by simp)
    by_cases h : a < (b :: t).getD (argmax (b :: t)) 0
    · rw [argmax_cons₂, if_pos h, List.getD_cons_succ]
      exact List.mem_cons_of_mem a ih
    · rw [argmax_cons₂, if_neg h, List.getD_cons_zero]
      exact List.mem_cons_self a (b :: t)

/-- The arg-max of a nonempty list is a valid index. -/
theorem argmax_lt_length : ∀ (l : List ℚ), l ≠ [] → argmax l < l.length
  | [], h => absurd rfl h
  | [a], _ => by
    rw [show argmax [a] = 0 from rfl]
    simp
  | a :: b :: t, _ => by
    have ih := argmax_lt_length (b :: t) (by simp)
    by_cases h : a < (b :: t).getD (argmax (b :: t)) 0
    · rw [argmax_cons₂, if_pos h]
      simpa using Nat.succ_lt_succ ih
    · rw [argmax_cons₂, if_neg h]
      simp

/-- Every index strictly before the arg-max holds a strictly smaller entry:
ties in the maximum resolve to the FIRST maximal position. -/
theorem argmax_first :
    ∀ (l : List ℚ), ∀ j, j < argmax l → l.getD j 0 < l.getD (argmax l) 0
  | [] => by simp [argmax]
  | [a] => by simp [argmax]
  | a :: b :: t => by
    intro j hj
    have ih := argmax_first (b :: t)
    by_cases h : a < (b :: t).getD (argmax (b :: t)) 0
    · rw [argmax_cons₂, if_pos h] at hj ⊢
      rw [List.getD_cons_succ]
      cases j with
      | zero => rw [List.getD_cons_zero]; exact h
      | succ k =>
        rw [List.getD_cons_succ]
        exact ih k (Nat.lt_of_succ_lt_succ hj)
    · rw [argmax_cons₂, if_neg h] at hj
      exact absurd hj (Nat.not_lt_zero j)

/-! ## Helper lemmas: `registryMatch` -/

/-- `registryMatch` falls through exactly when no filtered row's scaled
similarity reaches the threshold. -/
theorem registryMatch_eq_none_iff (cos : Embedding → Embedding → ℚ)
    (user_embedding : Embedding) (rows : List ToolRow) (threshold : ℚ) :
    registryMatch cos user_embedding rows threshold = none ↔
      ∀ p ∈ validEmbeddings rows, cos user_embedding p.2 * 100 < threshold := by
  unfold registryMatch
  by_cases hv : validEmbeddings rows = []
  · simp [hv]
  · simp only [hv, if_false]
    constructor
    · intro h p hp
      by_cases hθ : threshold ≤ bestConfOf (simsOf cos user_embedding (validEmbeddings rows))
      · simp [hθ] at h
      · have hlt := lt_of_not_le hθ
        have hmem : cos user_embedding p.2 ∈ simsOf cos user_embedding (validEmbeddings rows) :=
          List.mem_map_of_mem _ hp
        have hle := le_getD_argmax _ _ hmem
        unfold bestConfOf at hlt
        nlinarith
    · intro hall
      have hne : simsOf cos user_embedding (validEmbeddings rows) ≠ [] := by
        simpa [simsOf] using hv
      have hmem := getD_argmax_mem _ hne
      rcases List.mem_map.1 hmem with ⟨p, hp, hpe⟩
      have hlt := hall p hp
      rw [hpe] at hlt
      have : bestConfOf (simsOf cos user_embedding (validEmbeddings rows)) < threshold := by
        unfold bestConfOf; linarith
      simp [not_le.2 this]

/-- When some filtered row exists and the arg-max confidence clears the
threshold, `registryMatch` returns the id at the arg-max index together
with that confidence. -/
theorem registryMatch_hit (cos : Embedding → Embedding → ℚ)
    (user_embedding : Embedding) (rows : List ToolRow) (threshold : ℚ)
    (hne : validEmbeddings rows ≠ [])
    (hθ : threshold ≤ bestConfidence cos user_embedding rows) :
    registryMatch cos user_embedding rows threshold
      = some (bestToolId cos user_embedding rows,
              bestConfidence cos user_embedding rows) := by
  unfold bestConfidence at hθ ⊢
  unfold registryMatch bestToolId
  simp [hne, hθ]

/-- `registryMatch` only depends on the filtered rows. -/
theorem registryMatch_congr (cos : Embedding → Embedding → ℚ)
    (user_embedding : Embedding) (rows rows2 : List ToolRow) (threshold : ℚ)
    (h : validEmbeddings rows = validEmbeddings rows2) :
    registryMatch cos user_embedding rows threshold
      = registryMatch cos user_embedding rows2 threshold := by
  unfold registryMatch
  rw [h]

/-! ## Claim C1 -/

/-- Claim C1: for every transcript whose best scaled cosine similarity
against the simple-tool registry reaches `simple_threshold`,
`process_command` returns kind "simple" with that tool's id and that
confidence, and its result does not depend on the intelligent-tool
registry or its threshold at all (so even an intelligent tool with a
higher score is never consulted). -/
theorem C1_simple_preempts_intelligent (cos : Embedding → Embedding → ℚ)
    (encode : String → Embedding) (simpleRows intelRows intelRows2 : List ToolRow)
    (text : String) (simple_threshold it it2 : ℚ)
    (hb : strippedEmpty text = false)
    (hne : validEmbeddings simpleRows ≠ [])
    (hθ : simple_threshold ≤ bestConfidence cos (encode text) simpleRows) :
    process_command cos encode ⟨simpleRows, intelRows⟩ text simple_threshold it
      = (some ToolKind.simple, some (bestToolId cos (encode text) simpleRows),
          bestConfidence cos (encode text) simpleRows)
    ∧ process_command cos encode ⟨simpleRows, intelRows⟩ text simple_threshold it
      = process_command cos encode ⟨simpleRows, intelRows2⟩ text simple_threshold it2 := by
  have h := registryMatch_hit cos (encode text) simpleRows simple_threshold hne hθ
  unfold process_command
  simp [hb, h]

/-- Evaluation helper: the single-row registry holding a non-empty blob
filters to its one entry. -/
theorem validEmbeddings_single (n : Nat) :
    validEmbeddings [⟨n, some [1]⟩] = [(n, [1])] := by
  simp [validEmbeddings]

/-- Evaluation helper: against `constCos` a single-row registry scores
confidence 100. -/
theorem bestConfidence_single (u : Embedding) (n : Nat) :
    bestConfidence constCos u [⟨n, some [1]⟩] = 100 := by
  unfold bestConfidence bestConfOf simsOf constCos
  rw [validEmbeddings_single]
  norm_num [argmax]

/-- Witness for C1 at a concrete registry: both registries hold the very
embedding of the transcript (similarity 1, confidence 100 ≥ 50), the
simple tool wins and the intelligent registry is irrelevant. -/
theorem C1_witness :
    process_command constCos constEncode ⟨[⟨1, some [1]⟩], [⟨2, some [1]⟩]⟩
        "hi" 50 30
      = (some ToolKind.simple, some 1, 100)
    ∧ process_command constCos constEncode ⟨[⟨1, some [1]⟩], [⟨2, some [1]⟩]⟩
        "hi" 50 30
      = process_command constCos constEncode ⟨[⟨1, some [1]⟩], []⟩ "hi" 50 99 := by
  have h := C1_simple_preempts_intelligent constCos constEncode
    [⟨1, some [1]⟩] [⟨2, some [1]⟩] [] "hi" 50 30 99
    (by decide) (by decide) (by rw [bestConfidence_single]; norm_num)
  refine ⟨h.1.trans ?_, h.2⟩
  rw [bestConfidence_single]
  unfold bestToolId
  rw [validEmbeddings_single]
  simp [simsOf, constCos, argmax]

/-! ## Claim C2 -/

/-- Claim C2 counterexample: the transcript `" "` is non-empty, and the
simple registry stores the embedding of `" "` itself, so its (only) tool
scores confidence 100 ≥ 50 — yet `process_command` returns
`(None, None, 0)`, because the code's guard is `not text.strip()`, which
also fires on whitespace-only text.  This refutes "returns (None, None, 0)
exactly when the input text is empty or no tool reaches its threshold". -/
theorem C2_counterexample :
    process_command constCos constEncode ⟨[⟨1, some [1]⟩], []⟩ " " 50 30
      = (none, none, 0)
    ∧ (" " : String) ≠ ""
    ∧ (50 : ℚ) ≤ bestConfidence constCos (constEncode " ") [⟨1, some [1]⟩] := by
  refine ⟨?_, by decide, ?_⟩
  · unfold process_command
    rw [show strippedEmpty " " = true by decide]
    rfl
  · rw [bestConfidence_single]
    norm_num

/-- Claim C2 as amended: `process_command` returns `(None, None, 0)`
exactly when the input text is empty or whitespace-only (resolved before
any embedding or registry lookup) or when no simple tool with a stored
non-null, non-empty embedding reaches `simple_threshold` and no such
intelligent tool reaches `intelligent_tool_threshold`; in every other
case it returns a non-None kind together with a tool id. -/
theorem C2_amended (cos : Embedding → Embedding → ℚ) (encode : String → Embedding)
    (db : ToolDB) (text : String) (st it : ℚ) :
    (process_command cos encode db text st it = (none, none, 0)
      ↔ (strippedEmpty text = true ∨
          ((∀ p ∈ validEmbeddings db.simple_tools,
              cos (encode text) p.2 * 100 < st)
            ∧ ∀ p ∈ validEmbeddings db.intelligent_tools,
              cos (encode text) p.2 * 100 < it)))
    ∧ (process_command cos encode db text st it ≠ (none, none, 0) →
        ∃ k tid conf,
          process_command cos encode db text st it = (some k, some tid, conf)) := by
  by_cases hb : strippedEmpty text = true
  · constructor
    · rw [show process_command cos encode db text st it = (none, none, 0) by
        unfold process_command; simp [hb]]
      simp [hb]
    · intro hne
      exact absurd (by unfold process_command; simp [hb]) hne
  · replace hb : strippedEmpty text = false := by simpa using hb
    rcases hs : registryMatch cos (encode text) db.simple_tools st with _ | ⟨tid, conf⟩
    · rcases hi : registryMatch cos (encode text) db.intelligent_tools it with _ | ⟨tid2, conf2⟩
      · have heq : process_command cos encode db text st it = (none, none, 0) := by
          unfold process_command; simp [hb, hs, hi]
        constructor
        · rw [heq]
          simp only [true_iff]
          exact Or.inr ⟨(registryMatch_eq_none_iff _ _ _ _).1 hs,
            (registryMatch_eq_none_iff _ _ _ _).1 hi⟩
        · intro hne; exact absurd heq hne
      · have heq : process_command cos encode db text st it
            = (some ToolKind.intelligent, some tid2, conf2) := by
          unfold process_command; simp [hb, hs, hi]
        constructor
        · rw [heq]
          constructor
          · intro h; exact absurd h (by simp)
          · rintro (h | ⟨-, hall⟩)
            · simp [h] at hb
            · exact absurd ((registryMatch_eq_none_iff _ _ _ _).2 hall) (by simp [hi])
        · intro _; exact ⟨ToolKind.intelligent, tid2, conf2, heq⟩
    · have heq : process_command cos encode db text st it
          = (some ToolKind.simple, some tid, conf) := by
        unfold process_command; simp [hb, hs]
      constructor
      · rw [heq]
        constructor
        · intro h; exact absurd h (by simp)
        · rintro (h | ⟨hall, -⟩)
          · simp [h] at hb
          · exact absurd ((registryMatch_eq_none_iff _ _ _ _).2 hall) (by simp [hs])
      · intro _; exact ⟨ToolKind.simple, tid, conf, heq⟩

/-- Witness for the amended C2: with both registries empty no tool clears
any threshold and the non-blank transcript resolves to `(None, None, 0)`,
by the right-to-left direction of the amended equivalence. -/
theorem C2_amended_witness :
    process_command constCos constEncode ⟨[], []⟩ "hi" 50 30 = (none, none, 0) :=
  (C2_amended constCos constEncode ⟨[], []⟩ "hi" 50 30).1.mpr
    (Or.inr ⟨by decide, by decide⟩)

/-! ## Claim C3 -/

/-- Evaluation helper: a two-row registry with non-empty blobs filters to
its two entries in yield order. -/
theorem validEmbeddings_pair (n1 n2 : Nat) :
    validEmbeddings [⟨n1, some [1]⟩, ⟨n2, some [1]⟩] = [(n1, [1]), (n2, [1])] := by
  simp [validEmbeddings]

/-- Evaluation helper: against `constCos` both rows of a two-row registry
score similarity 1 (a tie), and `registryMatch` returns the FIRST row. -/
theorem registryMatch_constCos_pair (u : Embedding) (n1 n2 : Nat) (θ : ℚ)
    (hθ : θ ≤ 100) :
    registryMatch constCos u [⟨n1, some [1]⟩, ⟨n2, some [1]⟩] θ
      = some (n1, 100) := by
  unfold registryMatch
  rw [validEmbeddings_pair]
  have hs : simsOf constCos u [(n1, [1]), (n2, [1])] = [1, 1] := by
    simp [simsOf, constCos]
  have hm : argmax [(1 : ℚ), 1] = 0 := by norm_num [argmax]
  have hc : bestConfOf [(1 : ℚ), 1] = 100 := by
    unfold bestConfOf
    rw [hm]
    norm_num
  simp [hs, hm, hc, hθ]

/-- Claim C3 counterexample: two simple tools tie at similarity 1 (both
store the embedding of the transcript).  When the store yields the row
with id 2 first, `process_command` returns tool 2; with the same registry
contents yielded in the opposite order it returns tool 1.  So ties do not
resolve to the lowest tool id, and the result depends on the yield order
(the backing `SELECT id, embedding_vector FROM simple_tools` has no
ORDER BY). -/
theorem C3_counterexample :
    process_command constCos constEncode ⟨[⟨2, some [1]⟩, ⟨1, some [1]⟩], []⟩
        "hi" 50 30
      = (some ToolKind.simple, some 2, 100)
    ∧ process_command constCos constEncode ⟨[⟨1, some [1]⟩, ⟨2, some [1]⟩], []⟩
        "hi" 50 30
      = (some ToolKind.simple, some 1, 100) := by
  have hb : strippedEmpty "hi" = false := by decide
  constructor <;>
    · unfold process_command
      simp only [hb, Bool.false_eq_true, if_false]
      rw [registryMatch_constCos_pair _ _ _ 50 (by norm_num)]

/-- Claim C3 as amended: when the arg-max confidence clears the threshold,
`process_command` returns the tool at the arg-max position of the
similarity list; that position attains the maximal similarity and every
strictly earlier yield position scores strictly less — i.e. among tied
maximal tools the one the registry store yields FIRST wins (`numpy.argmax`
returns the first maximal index), not necessarily the lowest tool id. -/
theorem C3_amended (cos : Embedding → Embedding → ℚ)
    (encode : String → Embedding) (simpleRows intelRows : List ToolRow)
    (text : String) (st it : ℚ)
    (hb : strippedEmpty text = false)
    (hne : validEmbeddings simpleRows ≠ [])
    (hθ : st ≤ bestConfidence cos (encode text) simpleRows) :
    process_command cos encode ⟨simpleRows, intelRows⟩ text st it
      = (some ToolKind.simple, some (bestToolId cos (encode text) simpleRows),
          bestConfidence cos (encode text) simpleRows)
    ∧ (∀ x ∈ simsOf cos (encode text) (validEmbeddings simpleRows),
        x ≤ (simsOf cos (encode text) (validEmbeddings simpleRows)).getD
          (argmax (simsOf cos (encode text) (validEmbeddings simpleRows))) 0)
    ∧ (∀ j, j < argmax (simsOf cos (encode text) (validEmbeddings simpleRows)) →
        (simsOf cos (encode text) (validEmbeddings simpleRows)).getD j 0
          < (simsOf cos (encode text) (validEmbeddings simpleRows)).getD
              (argmax (simsOf cos (encode text) (validEmbeddings simpleRows))) 0) := by
  refine ⟨?_, le_getD_argmax _, argmax_first _⟩
  have h := registryMatch_hit cos (encode text) simpleRows st hne hθ
  unfold process_command
  simp [hb, h]

/-- Witness for the amended C3: the tied two-row registry yielding id 2
first returns tool 2 with confidence 100. -/
theorem C3_witness :
    process_command constCos constEncode ⟨[⟨2, some [1]⟩, ⟨1, some [1]⟩], []⟩
        "hi" 50 30
      = (some ToolKind.simple,
          some (bestToolId constCos (constEncode "hi")
            [⟨2, some [1]⟩, ⟨1, some [1]⟩]),
          bestConfidence constCos (constEncode "hi")
            [⟨2, some [1]⟩, ⟨1, some [1]⟩]) := by
  have hθ : (50 : ℚ) ≤ bestConfidence constCos (constEncode "hi")
      [⟨2, some [1]⟩, ⟨1, some [1]⟩] := by
    unfold bestConfidence
    rw [validEmbeddings_pair]
    have hs : simsOf constCos (constEncode "hi") [(2, [1]), (1, [1])] = [1, 1] := by
      simp [simsOf, constCos]
    rw [hs]
    unfold bestConfOf
    rw [show argmax [(1 : ℚ), 1] = 0 by norm_num [argmax]]
    norm_num
  exact (C3_amended constCos constEncode [⟨2, some [1]⟩, ⟨1, some [1]⟩] []
    "hi" 50 30 (by decide) (by rw [validEmbeddings_pair]; simp) hθ).1

/-! ## Claim C10 -/

/-- Claim C10: a registered tool whose stored embedding blob is NULL or
empty is silently skipped by `process_command`: deleting such a row from
either registry (at any position) does not change the result on any
transcript under any thresholds, so the tool can never be returned as a
match and never causes an error. -/
theorem C10_null_embedding_skipped (cos : Embedding → Embedding → ℚ)
    (encode : String → Embedding) (r : ToolRow)
    (hr : r.tool_embedding = none ∨ r.tool_embedding = some [])
    (pre post ipre ipost : List ToolRow) (text : String) (st it : ℚ) :
    validEmbeddings (pre ++ r :: post) = validEmbeddings (pre ++ post)
    ∧ process_command cos encode ⟨pre ++ r :: post, ipre ++ r :: ipost⟩ text st it
      = process_command cos encode ⟨pre ++ post, ipre ++ ipost⟩ text st it := by
  have hv : ∀ rows1 rows2 : List ToolRow,
      validEmbeddings (rows1 ++ r :: rows2) = validEmbeddings (rows1 ++ rows2) := by
    intro rows1 rows2
    unfold validEmbeddings
    rcases hr with h | h <;> simp [List.filterMap_append, List.filterMap_cons, h]
  have h1 := registryMatch_congr cos (encode text) (pre ++ r :: post)
    (pre ++ post) st (hv pre post)
  have h2 := registryMatch_congr cos (encode text) (ipre ++ r :: ipost)
    (ipre ++ ipost) it (hv ipre ipost)
  refine ⟨hv pre post, ?_⟩
  unfold process_command
  simp only [h1, h2]

/-- Witness for C10: a NULL-embedded tool (id 9) sitting alone in both
registries behaves like the empty registry. -/
theorem C10_witness :
    validEmbeddings [⟨9, none⟩] = validEmbeddings []
    ∧ process_command constCos constEncode ⟨[⟨9, none⟩], [⟨9, none⟩]⟩ "hi" 50 30
      = process_command constCos constEncode ⟨[], []⟩ "hi" 50 30 :=
  C10_null_embedding_skipped constCos constEncode ⟨9, none⟩ (Or.inl rfl)
    [] [] [] [] "hi" 50 30

/-! ## Helper lemmas: unfolding `get_ai_response` by cases -/

/-- Without an API key `get_ai_response` returns the fixed no-key envelope
and leaves the log untouched. -/
theorem gar_noKey (backend : Nat → BackendResult) (t : ℚ) (rc : Nat)
    (log : List Msg) :
    get_ai_response false backend t rc log = (⟨noKeyMsg, some false⟩, log) := by
  unfold get_ai_response
  simp

/-- A parsed reply carrying a message is returned as-is and appended to the
log. -/
theorem gar_ok_obj (backend : Nat → BackendResult) (t : ℚ) (rc : Nat)
    (log : List Msg) (m : String) (cc : Option Bool)
    (h : backend rc = BackendResult.ok (Content.obj m cc)) :
    get_ai_response true backend t rc log
      = (⟨m, cc⟩, log ++ [⟨"assistant", m⟩]) := by
  unfold get_ai_response
  simp [h]

/-- Content that fails `json.loads` yields the parse fallback. -/
theorem gar_ok_invalid (backend : Nat → BackendResult) (t : ℚ) (rc : Nat)
    (log : List Msg) (h : backend rc = BackendResult.ok Content.invalid) :
    get_ai_response true backend t rc log
      = (⟨parseFallbackMsg, some false⟩,
          log ++ [⟨"assistant", parseFallbackMsg⟩]) := by
  unfold get_ai_response
  simp [h]

/-- Content without a "message" key yields the parse fallback. -/
theorem gar_ok_noMessage (backend : Nat → BackendResult) (t : ℚ) (rc : Nat)
    (log : List Msg) (h : backend rc = BackendResult.ok Content.noMessage) :
    get_ai_response true backend t rc log
      = (⟨parseFallbackMsg, some false⟩,
          log ++ [⟨"assistant", parseFallbackMsg⟩]) := by
  unfold get_ai_response
  simp [h]

/-- A raised exception either triggers the single retry (validation error
at retry count 0) or the apology envelope. -/
theorem gar_err (backend : Nat → BackendResult) (t : ℚ) (rc : Nat)
    (log : List Msg) (e : String) (h : backend rc = BackendResult.err e) :
    get_ai_response true backend t rc log
      = if isJsonValidationError e = true ∧ rc = 0
        then get_ai_response true backend (3 / 10) 1 log
        else (⟨apologyMsg, some false⟩, log ++ [⟨"assistant", apologyMsg⟩]) := by
  unfold get_ai_response
  simp [h, dite_eq_ite]
  split
  · rcases hb1 : backend 1 with c1 | e1
    · rcases c1 with _ | _ | ⟨m, cc⟩
      · rw [gar_ok_invalid backend (3 / 10) 1 log hb1]
      · rw [gar_ok_noMessage backend (3 / 10) 1 log hb1]
      · rw [gar_ok_obj backend (3 / 10) 1 log m cc hb1]
    · unfold get_ai_response
      simp [hb1]
  · rfl

/-- Every successful-parse outcome appends exactly one assistant message. -/
theorem gar_ok_appends (backend : Nat → BackendResult) (t : ℚ) (rc : Nat)
    (log : List Msg) (c : Content) (h : backend rc = BackendResult.ok c) :
    ∃ m, (get_ai_response true backend t rc log).2 = log ++ [⟨"assistant", m⟩] := by
  rcases c with _ | _ | ⟨m, cc⟩
  · exact ⟨parseFallbackMsg, by rw [gar_ok_invalid backend t rc log h]⟩
  · exact ⟨parseFallbackMsg, by rw [gar_ok_noMessage backend t rc log h]⟩
  · exact ⟨m, by rw [gar_ok_obj backend t rc log m cc h]⟩

/-- With an API key, `get_ai_response` appends exactly one assistant
message to the log, on every path (success, parse fallback, retry,
apology). -/
theorem gar_appends (backend : Nat → BackendResult) (t : ℚ) (rc : Nat)
    (log : List Msg) :
    ∃ m, (get_ai_response true backend t rc log).2 = log ++ [⟨"assistant", m⟩] := by
  rcases hb : backend rc with c | e
  · exact gar_ok_appends backend t rc log c hb
  · rw [gar_err backend t rc log e hb]
    by_cases h : isJsonValidationError e = true ∧ rc = 0
    · rw [if_pos h]
      rcases hb1 : backend 1 with c1 | e1
      · exact gar_ok_appends backend (3 / 10) 1 log c1 hb1
      · rw [gar_err backend (3 / 10) 1 log e1 hb1, if_neg (by simp)]
        exact ⟨apologyMsg, rfl⟩
    · rw [if_neg h]
      exact ⟨apologyMsg, rfl⟩

/-! ## Claim C4 -/

/-- Claim C4 counterexample: the backend returns parseable content whose
object has a "message" key but no "continue_conversation" key (content
that violates the declared schema, i.e. malformed structured output that
does not raise).  `get_ai_response` performs no retry and returns that
object as-is: the returned envelope's `continue_conversation` field is
absent, refuting "the continue_conversation field is set in every
returned envelope". -/
theorem C4_counterexample :
    get_ai_response true (fun _ => BackendResult.ok (Content.obj "hi" none)) 1 0 []
      = (⟨"hi", none⟩, [⟨"assistant", "hi"⟩])
    ∧ (Envelope.mk "hi" none).continue_conversation = none := by
  constructor
  · have h := gar_ok_obj (fun _ => BackendResult.ok (Content.obj "hi" none))
      1 0 [] "hi" none rfl
    simpa using h
  · rfl

/-- Claim C4 as amended: `get_ai_response` never raises (it is total); a
backend call that RAISES a JSON-validation error on the first attempt is
retried exactly once at temperature 0.3 (lower than the default 1); if the
retry raises again, or any other backend exception occurs, the fixed
apology envelope with `continue_conversation = False` is returned; content
that fails to parse (or lacks a message) yields a fallback envelope with
`continue_conversation = False` and no retry; on the success path the
parsed backend object is returned as-is, so its `continue_conversation`
field is present only when the backend reply includes it — every returned
envelope is either fail-closed with `continue_conversation = False` or
exactly the backend's own parsed object. -/
theorem C4_amended (backend : Nat → BackendResult) (log : List Msg) :
    ((3 : ℚ) / 10 < 1)
    ∧ (∀ e, backend 0 = BackendResult.err e → isJsonValidationError e = true →
        get_ai_response true backend 1 0 log
          = get_ai_response true backend (3 / 10) 1 log)
    ∧ (∀ t e, backend 1 = BackendResult.err e →
        get_ai_response true backend t 1 log
          = (⟨apologyMsg, some false⟩, log ++ [⟨"assistant", apologyMsg⟩]))
    ∧ (∀ e, backend 0 = BackendResult.err e → isJsonValidationError e = false →
        get_ai_response true backend 1 0 log
          = (⟨apologyMsg, some false⟩, log ++ [⟨"assistant", apologyMsg⟩]))
    ∧ (∀ t rc c, backend rc = BackendResult.ok c →
        c = Content.invalid ∨ c = Content.noMessage →
        get_ai_response true backend t rc log
          = (⟨parseFallbackMsg, some false⟩,
              log ++ [⟨"assistant", parseFallbackMsg⟩]))
    ∧ (∀ t rc,
        (get_ai_response true backend t rc log).1.continue_conversation = some false
        ∨ ∃ m cc, (backend rc = BackendResult.ok (Content.obj m cc)
              ∨ backend 1 = BackendResult.ok (Content.obj m cc))
            ∧ (get_ai_response true backend t rc log).1 = ⟨m, cc⟩) := by
  refine ⟨by norm_num, ?_, ?_, ?_, ?_, ?_⟩
  · intro e h hv
    rw [gar_err backend 1 0 log e h, if_pos ⟨hv, rfl⟩]
  · intro t e h
    rw [gar_err backend t 1 log e h, if_neg (by simp)]
  · intro e h hv
    rw [gar_err backend 1 0 log e h, if_neg (by simp [hv])]
  · intro t rc c h hc
    rcases hc with rfl | rfl
    · rw [gar_ok_invalid backend t rc log h]
    · rw [gar_ok_noMessage backend t rc log h]
  · intro t rc
    rcases hb : backend rc with c | e
    · rcases c with _ | _ | ⟨m, cc⟩
      · rw [gar_ok_invalid backend t rc log hb]
        exact Or.inl rfl
      · rw [gar_ok_noMessage backend t rc log hb]
        exact Or.inl rfl
      · rw [gar_ok_obj backend t rc log m cc hb]
        exact Or.inr ⟨m, cc, Or.inl rfl, rfl⟩
    · rw [gar_err backend t rc log e hb]
      by_cases h : isJsonValidationError e = true ∧ rc = 0
      · rw [if_pos h]
        rcases hb1 : backend 1 with c1 | e1
        · rcases c1 with _ | _ | ⟨m, cc⟩
          · rw [gar_ok_invalid backend (3 / 10) 1 log hb1]
            exact Or.inl rfl
          · rw [gar_ok_noMessage backend (3 / 10) 1 log hb1]
            exact Or.inl rfl
          · rw [gar_ok_obj backend (3 / 10) 1 log m cc hb1]
            exact Or.inr ⟨m, cc, Or.inr rfl, rfl⟩
        · rw [gar_err backend (3 / 10) 1 log e1 hb1, if_neg (by simp)]
          exact Or.inl rfl
      · rw [if_neg h]
        exact Or.inl rfl

/-- Witness for the amended C4: a backend raising `json_validate_failed`
on the first attempt is retried exactly once at temperature 0.3. -/
theorem C4_witness :
    get_ai_response true valErrBackend 1 0 []
      = get_ai_response true valErrBackend (3 / 10) 1 [] :=
  (C4_amended valErrBackend []).2.1 jsonValidateTag rfl (by decide)

/-! ## Helper lemmas: turns of the orchestrator -/

/-- A blank transcript makes `process_command_async` return `None`, leave
the log alone, clear the flag and play the double low beep. -/
theorem pca_blank (E : Env) (cc : Bool) (transcript : String) (log : List Msg)
    (h : strippedEmpty transcript = true) :
    process_command_async E cc transcript log
      = (none, log, false, [lowBeepTag, lowBeepTag]) := by
  unfold process_command_async
  rw [if_neg (by simp [h])]

/-- On the two language-model paths (`intelligent` and no-tool fallback),
`execute_initial_command` appends exactly one assistant message. -/
theorem exec_llm_appends (E : Env) (tool_type : Option ToolKind)
    (tool_id : Option Nat) (log : List Msg)
    (hkey : E.hasApiKey = true) (h : tool_type ≠ some ToolKind.simple) :
    ∃ m, (execute_initial_command E tool_type tool_id log).2
      = log ++ [⟨"assistant", m⟩] := by
  rcases tool_type with _ | k
  · unfold execute_initial_command
    rw [hkey]
    exact gar_appends E.backend 1 0 log
  · rcases k
    · exact absurd rfl h
    · unfold execute_initial_command
      rw [hkey]
      exact gar_appends E.backend 1 0 log

/-- A turn whose envelope says `continue_conversation = True`: the
post-state re-enters capture (`continue_conversation := true`), the wake
event is left exactly as the detector set it mid-turn (no
`wake_detected.clear()` on this path), and the ready tone heads the
sounds. -/
theorem orch_turn_cont (E : Env) (st : OrchState) (transcript : String)
    (wakeMid : Bool) (env : Envelope) (log2 : List Msg) (cc2 : Bool)
    (snd : List String)
    (hentry : (st.wake_detected || st.continue_conversation) = true)
    (hp : process_command_async E st.continue_conversation transcript st.log
      = (some env, log2, cc2, snd))
    (hcc : env.continue_conversation = some true) :
    orch_iteration E st transcript wakeMid
      = (some ⟨true, wakeMid, false, log2⟩,
          readyToneTag :: (snd ++ speakSounds (some env)), true) := by
  unfold orch_iteration
  rw [if_pos hentry]
  simp [hp, hcc]

/-- A turn whose envelope says `continue_conversation = False`: all
per-turn state is cleared and the wake event is reset. -/
theorem orch_turn_end (E : Env) (st : OrchState) (transcript : String)
    (wakeMid : Bool) (env : Envelope) (log2 : List Msg) (cc2 : Bool)
    (snd : List String)
    (hentry : (st.wake_detected || st.continue_conversation) = true)
    (hp : process_command_async E st.continue_conversation transcript st.log
      = (some env, log2, cc2, snd))
    (hcc : env.continue_conversation = some false) :
    orch_iteration E st transcript wakeMid
      = (some ⟨false, false, false, log2⟩,
          readyToneTag :: (snd ++ speakSounds (some env)), true) := by
  unfold orch_iteration
  rw [if_pos hentry]
  simp [hp, hcc]

/-- A turn that got no response (`None`, the blank-transcript abort): the
flag is cleared, the wake event reset, and the turn ends. -/
theorem orch_turn_abort (E : Env) (st : OrchState) (transcript : String)
    (wakeMid : Bool) (log2 : List Msg) (cc2 : Bool) (snd : List String)
    (hentry : (st.wake_detected || st.continue_conversation) = true)
    (hp : process_command_async E st.continue_conversation transcript st.log
      = (none, log2, cc2, snd)) :
    orch_iteration E st transcript wakeMid
      = (some ⟨false, false, false, log2⟩,
          readyToneTag :: (snd ++ speakSounds none), true) := by
  unfold orch_iteration
  rw [if_pos hentry]
  simp [hp]

/-- Whenever the entry test fires, a capture window opens and the ready
tone is played first — the code plays `sources/ready.mp3` unconditionally
on every capture path, wake-triggered or continuation. -/
theorem orch_turn_opens (E : Env) (st : OrchState) (transcript : String)
    (wakeMid : Bool)
    (hentry : (st.wake_detected || st.continue_conversation) = true) :
    (orch_iteration E st transcript wakeMid).2.2 = true
    ∧ (orch_iteration E st transcript wakeMid).2.1.head? = some readyToneTag := by
  unfold orch_iteration
  rw [if_pos hentry]
  rcases hr : (process_command_async E st.continue_conversation transcript st.log).1
    with _ | env
  · simp [hr]
  · rcases hcc : env.continue_conversation with _ | b
    · simp [hr, hcc]
    · rcases b <;> simp [hr, hcc]

/-! ## Claim C5 -/

/-- Claim C5: on every turn that reaches the language-model backend (the
transcript is non-blank, the resolver did not pick a simple tool, and an
API key is configured), exactly one user message and exactly one
assistant message are appended to the message log, the user message
strictly first. -/
theorem C5_turn_log (E : Env) (cc : Bool) (transcript : String) (log : List Msg)
    (hkey : E.hasApiKey = true)
    (hne : strippedEmpty transcript = false)
    (hllm : (process_command E.cos E.encode E.db transcript 50 30).1
      ≠ some ToolKind.simple) :
    ∃ m, (process_command_async E cc transcript log).2.1
      = log ++ [⟨"user", transcript⟩, ⟨"assistant", m⟩] := by
  unfold process_command_async
  rw [if_pos hne]
  simp only []
  obtain ⟨m, hm⟩ := exec_llm_appends E
    (process_command E.cos E.encode E.db transcript 50 30).1
    (process_command E.cos E.encode E.db transcript 50 30).2.1
    (log ++ [⟨"user", transcript⟩]) hkey hllm
  exact ⟨m, by rw [hm]; simp⟩

/-- Witness for C5: a turn of `envCont` (no tools, key present) appends
the user transcript and one assistant reply, in that order. -/
theorem C5_witness :
    ∃ m, (process_command_async envCont false "hello" []).2.1
      = [] ++ [⟨"user", "hello"⟩, ⟨"assistant", m⟩] := by
  refine C5_turn_log envCont false "hello" [] rfl (by decide) ?_
  simp [process_command, envCont, registryMatch, validEmbeddings]

/-! ## Claim C8 -/

/-- Claim C8: a capture window yielding the empty transcript aborts the
turn — the orchestrator plays the double low-tone acknowledgment, sets
`continue_conversation` to False, appends nothing to the message log,
and returns to waiting for the wake word.  The result is the same for
every registry and backend (the equation holds for every `E`), so no
resolution and no execution happens. -/
theorem C8_empty_transcript_aborts (E : Env) (st : OrchState) (wakeMid : Bool)
    (hentry : st.wake_detected = true ∨ st.continue_conversation = true) :
    orch_iteration E st "" wakeMid
      = (some ⟨false, false, false, st.log⟩,
          [readyToneTag, lowBeepTag, lowBeepTag], true) := by
  have he : (st.wake_detected || st.continue_conversation) = true := by
    rcases hentry with h | h <;> simp [h]
  have hp := pca_blank E st.continue_conversation "" st.log (by decide)
  rw [orch_turn_abort E st "" wakeMid st.log false [lowBeepTag, lowBeepTag] he hp]
  simp [speakSounds]

/-- Witness for C8: concrete empty-transcript turn from a wake-triggered
state with a non-trivial pending log. -/
theorem C8_witness :
    orch_iteration envCont ⟨false, true, false, [⟨"user", "old"⟩]⟩ "" false
      = (some ⟨false, false, false, [⟨"user", "old"⟩]⟩,
          [readyToneTag, lowBeepTag, lowBeepTag], true) :=
  C8_empty_transcript_aborts envCont ⟨false, true, false, [⟨"user", "old"⟩]⟩
    false (Or.inl rfl)

/-! ## Claim C6 -/

/-- Evaluation helper: a non-blank turn of `envCont` falls through both
(empty) registries to the language model, whose scripted reply is
`{message: "ok", continue_conversation: true}`. -/
theorem pca_envCont (cc : Bool) (transcript : String) (log : List Msg)
    (h : strippedEmpty transcript = false) :
    process_command_async envCont cc transcript log
      = (some ⟨"ok", some true⟩,
          log ++ [⟨"user", transcript⟩, ⟨"assistant", "ok"⟩], cc, []) := by
  unfold process_command_async
  rw [if_pos h]
  have hpc : process_command envCont.cos envCont.encode envCont.db transcript 50 30
      = (none, none, 0) := by
    simp [process_command, envCont, registryMatch, validEmbeddings, h]
  have hex : execute_initial_command envCont none none
      (log ++ [⟨"user", transcript⟩])
      = (⟨"ok", some true⟩, log ++ [⟨"user", transcript⟩, ⟨"assistant", "ok"⟩]) := by
    unfold execute_initial_command
    have := gar_ok_obj envCont.backend 1 0 (log ++ [⟨"user", transcript⟩])
      "ok" (some true) rfl
    rw [show envCont.hasApiKey = true from rfl, this]
    simp
  simp [hpc, hex]

/-- Claim C6 counterexample: first turn — wake-triggered, scripted backend
reply has `continue_conversation = true` — leaves the orchestrator with
the flag set; the very next iteration opens a capture window with no wake
trigger (the wake event is clear), BUT it plays the "ready" tone
(`sources/ready.mp3` heads its sound trace), refuting the claim's
"without playing the \"ready\" tone". -/
theorem C6_counterexample :
    orch_iteration envCont ⟨false, true, false, []⟩ "hello" false
      = (some ⟨true, false, false, [⟨"user", "hello"⟩, ⟨"assistant", "ok"⟩]⟩,
          [readyToneTag, speakTag "ok"], true)
    ∧ (orch_iteration envCont
        ⟨true, false, false, [⟨"user", "hello"⟩, ⟨"assistant", "ok"⟩]⟩
        "again" false).2.2 = true
    ∧ readyToneTag ∈ (orch_iteration envCont
        ⟨true, false, false, [⟨"user", "hello"⟩, ⟨"assistant", "ok"⟩]⟩
        "again" false).2.1 := by
  refine ⟨?_, ?_, ?_⟩
  · rw [orch_turn_cont envCont ⟨false, true, false, []⟩ "hello" false
      ⟨"ok", some true⟩ [⟨"user", "hello"⟩, ⟨"assistant", "ok"⟩] false []
      (by simp) (by simpa using pca_envCont false "hello" [] (by decide)) rfl]
    simp [speakSounds, speakTag]
  · exact (orch_turn_opens envCont _ "again" false (by simp)).1
  · have h := (orch_turn_opens envCont
      ⟨true, false, false, [⟨"user", "hello"⟩, ⟨"assistant", "ok"⟩]⟩
      "again" false (by simp)).2
    rcases hs : (orch_iteration envCont
        ⟨true, false, false, [⟨"user", "hello"⟩, ⟨"assistant", "ok"⟩]⟩
        "again" false).2.1 with _ | ⟨a, l⟩
    · rw [hs] at h; simp at h
    · rw [hs] at h
      simp only [List.head?_cons, Option.some.injEq] at h
      rw [← h]
      exact List.mem_cons_self a l

/-- Claim C6 as amended: when a turn's envelope has
`continue_conversation = true`, the orchestrator's very next state is
Capturing — the flag is set, so the next iteration opens a capture window
without any fresh wake trigger — and the wake signal is NOT cleared on
this path (it keeps whatever the detector set mid-turn); when the
envelope says `false`, per-turn state is cleared and the wake signal is
reset.  However, contrary to the original claim, the "ready" tone IS
played at the start of every capture window, continuation turns
included. -/
theorem C6_amended (E : Env) (st : OrchState) (transcript : String)
    (wakeMid : Bool)
    (hentry : st.wake_detected = true ∨ st.continue_conversation = true) :
    (∀ env log2 cc2 snd,
        process_command_async E st.continue_conversation transcript st.log
          = (some env, log2, cc2, snd) →
        (env.continue_conversation = some true →
          orch_iteration E st transcript wakeMid
            = (some ⟨true, wakeMid, false, log2⟩,
                readyToneTag :: (snd ++ speakSounds (some env)), true))
        ∧ (env.continue_conversation = some false →
          orch_iteration E st transcript wakeMid
            = (some ⟨false, false, false, log2⟩,
                readyToneTag :: (snd ++ speakSounds (some env)), true)))
    ∧ (orch_iteration E st transcript wakeMid).2.2 = true
    ∧ (orch_iteration E st transcript wakeMid).2.1.head? = some readyToneTag
    ∧ (∀ st2 : OrchState, st2.continue_conversation = true → ∀ t2 w2,
        (orch_iteration E st2 t2 w2).2.2 = true
        ∧ (orch_iteration E st2 t2 w2).2.1.head? = some readyToneTag) := by
  have he : (st.wake_detected || st.continue_conversation) = true := by
    rcases hentry with h | h <;> simp [h]
  refine ⟨?_, (orch_turn_opens E st transcript wakeMid he).1,
    (orch_turn_opens E st transcript wakeMid he).2, ?_⟩
  · intro env log2 cc2 snd hp
    exact ⟨fun hcc => orch_turn_cont E st transcript wakeMid env log2 cc2 snd
        he hp hcc,
      fun hcc => orch_turn_end E st transcript wakeMid env log2 cc2 snd
        he hp hcc⟩
  · intro st2 h2 t2 w2
    exact orch_turn_opens E st2 t2 w2 (by simp [h2])

/-- Witness for the amended C6: from a state whose flag is set, the next
iteration opens a capture window (no wake trigger) and the ready tone
heads its sounds. -/
theorem C6_witness :
    (orch_iteration envCont ⟨true, false, false, []⟩ "hi" false).2.2 = true
    ∧ (orch_iteration envCont ⟨true, false, false, []⟩ "hi" false).2.1.head?
        = some readyToneTag :=
  (C6_amended envCont ⟨true, false, false, []⟩ "x" false
    (Or.inr rfl)).2.2.2 ⟨true, false, false, []⟩ rfl "hi" false

/-! ## Claim C7 -/

/-- Claim C7 counterexample: with the wake event already set (unconsumed)
and a frame available, the detection loop still submits the frame to the
wake-word model — the second component is `true` — refuting "the loop
stops submitting frames to the wake-word model until the signal is
consumed". -/
theorem C7_counterexample :
    detection_iteration (1 / 2) true (DetectInput.audio [("alexa", 9 / 10)])
      = (true, true) := by
  constructor

/-- Claim C7 as amended: the wake signal is an idempotent event — once
set it stays set through every further iteration, so a second
`Event.set` before consumption is a no-op and no distinct new signal is
observable, and `is_wake_detected` consumes it (returns the old value and
clears it); but the detection loop keeps submitting every available
frame to the wake-word model even while the signal is unconsumed, and
the event after a frame is the old value OR-ed with whether some
confidence strictly exceeds the threshold. -/
theorem C7_amended (confidence_threshold : ℚ) :
    (∀ inp, (detection_iteration confidence_threshold true inp).1 = true)
    ∧ (∀ w prediction,
        (detection_iteration confidence_threshold w
          (DetectInput.audio prediction)).2 = true)
    ∧ (∀ w prediction,
        (detection_iteration confidence_threshold w
          (DetectInput.audio prediction)).1
          = (w || prediction.any fun p => confidence_threshold < p.2))
    ∧ (∀ w, is_wake_detected w = (w, false)) := by
  refine ⟨?_, fun w prediction => rfl, fun w prediction => rfl, fun w => rfl⟩
  intro inp
  rcases inp with _ | prediction | _
  · rfl
  · simp [detection_iteration]
  · rfl

/-! ## Claim C9 -/

/-- A script of pure silence (queue timeouts and empty partials) never
changes the accumulated transcript: the loop returns `command_text`
unchanged whether it hits the silence timeout or exhausts the listening
window. -/
theorem recognize_loop_silent (max_silence_duration : ℚ) :
    ∀ (script : List (ℚ × RecEvent)) (command_text : String)
      (silence_start : Option ℚ),
      (∀ p ∈ script, p.2 = RecEvent.noData ∨ p.2 = RecEvent.partialText "") →
      recognize_loop max_silence_duration script command_text silence_start
        = command_text := by
  intro script
  induction script with
  | nil => intro acc ss _; rfl
  | cons hd tl ih =>
    intro acc ss h
    obtain ⟨t, ev⟩ := hd
    have htl := fun p hp => h p (List.mem_cons_of_mem _ hp)
    rcases h (t, ev) (List.mem_cons_self _ _) with h1 | h1 <;>
      simp only at h1 <;> subst h1
    · simp only [recognize_loop]
      exact ih acc ss htl
    · rcases ss with _ | t0 <;> simp only [recognize_loop, ne_eq] <;>
        rw [if_neg (by simp)]
      · exact ih acc (some t) htl
      · split
        · rfl
        · exact ih acc (some t0) htl

/-- Claim C9: a capture window in which no speech is ever recognized
(every poll yields a queue timeout or an empty partial) returns the empty
transcript; the window terminates at the first poll whose empty partial
arrives more than `max_silence_duration` after the silence started,
returning the accumulated transcript and ignoring the rest of the
script; a non-empty partial resets the silence timer to `None`; the
first empty partial starts the timer; and an engine error aborts the
window returning the accumulated transcript instead of propagating. -/
theorem C9_capture_window (max_silence_duration : ℚ) :
    (∀ script : List (ℚ × RecEvent),
        (∀ p ∈ script, p.2 = RecEvent.noData ∨ p.2 = RecEvent.partialText "") →
        recognize_command max_silence_duration script = "")
    ∧ (∀ t t0 rest acc, max_silence_duration < t - t0 →
        recognize_loop max_silence_duration
          ((t, RecEvent.partialText "") :: rest) acc (some t0) = acc)
    ∧ (∀ t s rest acc ss, s ≠ "" →
        recognize_loop max_silence_duration
          ((t, RecEvent.partialText s) :: rest) acc ss
          = recognize_loop max_silence_duration rest acc none)
    ∧ (∀ t rest acc,
        recognize_loop max_silence_duration
          ((t, RecEvent.partialText "") :: rest) acc none
          = recognize_loop max_silence_duration rest acc (some t))
    ∧ (∀ t rest acc ss,
        recognize_loop max_silence_duration
          ((t, RecEvent.engineError) :: rest) acc ss = acc) := by
  refine ⟨?_, ?_, ?_, ?_, ?_⟩
  · intro script h
    exact recognize_loop_silent max_silence_duration script "" none h
  · intro t t0 rest acc ht
    simp only [recognize_loop, ne_eq]
    rw [if_neg (by simp), if_pos ht]
  · intro t s rest acc ss hs
    simp only [recognize_loop, ne_eq]
    rw [if_pos hs]
  · intro t rest acc
    simp only [recognize_loop, ne_eq]
    rw [if_neg (by simp)]
  · intro t rest acc ss
    rfl

/-- Witness for C9: a window hearing only silence — the timer starts at
time 0 and the empty partial at time 4 exceeds the 3-second limit — ends
with the empty transcript; an erroring window with accumulated text
returns that text. -/
theorem C9_witness :
    recognize_command 3 [(0, RecEvent.partialText ""), (4, RecEvent.partialText "")]
      = ""
    ∧ recognize_loop 3 [(5, RecEvent.engineError)] "" (some 0) = "" := by
  constructor
  · exact (C9_capture_window 3).1
      [(0, RecEvent.partialText ""), (4, RecEvent.partialText "")]
      (by decide)
  · exact (C9_capture_window 3).2.2.2.2 5 [] "" (some 0)

end ProjectMLO
